import Mathlib

/-!
Verification of the blog post lifecycle of a small Django blog application
(`blog/models.py`, `blog/forms.py`, `blog/views.py`).

The post entity, its `save` slug logic, the form field binding and the five
request handlers are embedded as pure Lean functions over an explicit
persistent store (`DB := List Post`).  External collaborators (the Django
ORM's unique-constraint enforcement, `django.utils.text.slugify`, form
validation machinery) are not part of the repository's sources; where a
definition models such a collaborator its doc comment says so and follows
the specification's wording.
-/

/-- Modelled from the spec: `django.utils.text.slugify`, called by
`Post.save` in `blog/models.py` but implemented outside this repository.
Canonical derivation of a slug from a title: lowercase, every run of
non-alphanumeric characters collapsed to a single hyphen, leading and
trailing hyphens stripped.  Implemented by cutting the character list into
maximal alphanumeric runs (lowercased) and joining them with hyphens. -/
def slugify (t : String) : String :=
  let runs : List (List Char) :=
    t.toList.foldr
      (fun c acc =>
        if c.isAlphanum then
          match acc with
          | [] => [[c.toLower]]
          | w :: ws => (c.toLower :: w) :: ws
        else [] :: acc)
      []
  String.intercalate "-" ((runs.filter (fun w => w ≠ [])).map String.mk)

/-- The `Post` model of `blog/models.py`.  `author` is the id of the owning
user (`ForeignKey(User)`); `featured_image` is the optional Cloudinary
reference (`blank=True, null=True`); `status` is the raw `CharField` value,
constrained to `STATUS_CHOICES` by form validation; `created_at` /
`updated_at` are the `auto_now_add` / `auto_now` timestamps, modelled as
abstract clock values. -/
structure Post where
  id : Nat
  title : String
  slug : String
  author : Nat
  content : String
  featured_image : Option String
  status : String
  created_at : Nat
  updated_at : Nat
deriving DecidableEq

/-- Method `Post.save` from `blog/models.py` (the in-instance part, before the
database write): if the slug is falsy (empty) or `slugify(title)` differs
from the stored slug, set `slug := slugify(title)`; the `auto_now` field
`updated_at` is refreshed to the current clock `now`. -/
def Post.save (now : Nat) (p : Post) : Post :=
  if p.slug = "" ∨ slugify p.title ≠ p.slug then
    { p with slug := slugify p.title, updated_at := now }
  else { p with updated_at := now }

/-- The persistent store: the table of saved posts. -/
abbrev DB := List Post

/-- Declaration `slug = models.SlugField(..., unique=True)` (`blog/models.py` line 14):
all stored slugs are pairwise distinct. -/
def slugsDistinct : DB → Bool
  | [] => true
  | p :: rest => rest.all (fun q => q.slug != p.slug) && slugsDistinct rest

/-- Modelled from the spec: the persistence layer's enforcement of the
`unique=True` constraint on `slug` (done by the relational engine, outside
this repository).  Inserting a row whose slug collides with a stored row is
rejected with a uniqueness violation (`none`); otherwise the row is
appended. -/
def insertPost (db : DB) (p : Post) : Option DB :=
  if db.any (fun q => q.slug == p.slug) then none
  else some (db ++ [p])

/-- Modelled from the spec: the persistence layer's `UPDATE` of an existing
row under the `unique=True` slug constraint.  If another row (different id)
already holds the new slug the write is rejected (`none`); otherwise the
row with the same id is replaced. -/
def updatePost (db : DB) (p : Post) : Option DB :=
  if db.any (fun q => q.slug == p.slug && q.id != p.id) then none
  else some (db.map (fun q => if q.id == p.id then p else q))

/-- The data bound by `PostForm` (`blog/forms.py`):
`fields = [title, content, featured_image, status]`. -/
structure PostForm where
  title : String
  content : String
  featured_image : Option String
  status : String
deriving DecidableEq

/-- Modelled from the spec: `PostForm.is_valid()`, the Django `ModelForm`
validation derived from the model fields (machinery outside this
repository): title and content non-empty, title at most 200 characters
(`max_length=200`), status one of the two enum values of
`STATUS_CHOICES`. -/
def PostForm.is_valid (f : PostForm) : Bool :=
  f.title != "" && decide (f.title.length ≤ 200) && f.content != "" &&
    (f.status == "draft" || f.status == "published")

/-- HTTP request method, as tested by `request.method == 'POST'`. -/
inductive Method where
  | get
  | post
deriving DecidableEq

/-- The responses the handlers of `blog/views.py` can produce.
`formPage b` renders the create/edit form, `b = true` when it carries field
errors from an invalid submission; `integrityError` is the uncaught
database uniqueness violation escaping the view. -/
inductive Response where
  | listPage (posts : List Post)
  | detailPage (p : Post)
  | formPage (hasErrors : Bool)
  | confirmPage (p : Post)
  | redirect (target : String)
  | notFound
  | loginRedirect
  | integrityError
deriving DecidableEq

/-- View `post_list` (`blog/views.py`): the public list view.  The request's
user is received but never consulted; only `status='published'` posts are
kept. -/
def post_list : Option Nat → DB → List Post :=
  fun _ db => db.filter (fun p => p.status == "published")

/-- View `post_detail` (`blog/views.py`): `get_object_or_404(Post, slug=slug,
status='published')`.  The request's user is received but never consulted;
`none` is the 404 outcome. -/
def post_detail : Option Nat → DB → String → Option Post :=
  fun _ db s => db.find? (fun p => p.slug == s && p.status == "published")

/-- View `post_create` (`blog/views.py`): `@login_required`; on POST, if the
form is valid, build the post from the form data (`commit=False`), set
`author := current user`, run `Post.save` (slug derivation from the empty
slug, timestamps) and write it through the unique-slug insert; success
redirects to `my_posts`, an invalid form re-renders with errors, GET
renders the blank form. `newId` is the system-assigned primary key. -/
def post_create (requester : Option Nat) (db : DB) (m : Method)
    (f : PostForm) (now newId : Nat) : Response × DB :=
  match requester with
  | none => (.loginRedirect, db)
  | some u =>
    match m with
    | .get => (.formPage false, db)
    | .post =>
      if f.is_valid then
        match insertPost db (Post.save now
          { id := newId, title := f.title, slug := "", author := u,
            content := f.content, featured_image := f.featured_image,
            status := f.status, created_at := now, updated_at := now }) with
        | some db' => (.redirect "my_posts", db')
        | none => (.integrityError, db)
      else (.formPage true, db)

/-- View `post_edit` (`blog/views.py`): `@login_required`;
`get_object_or_404(Post, slug=slug, author=request.user)` — 404 unless a
post matches both the slug and the requesting user as author.  On POST
with a valid form, the bound fields (title, content, featured_image,
status) are written onto the instance, `Post.save` reruns the slug logic,
and the row is updated; success redirects to `my_posts`. -/
def post_edit (requester : Option Nat) (db : DB) (s : String) (m : Method)
    (f : PostForm) (now : Nat) : Response × DB :=
  match requester with
  | none => (.loginRedirect, db)
  | some u =>
    match db.find? (fun p => p.slug == s && p.author == u) with
    | none => (.notFound, db)
    | some p =>
      match m with
      | .get => (.formPage false, db)
      | .post =>
        if f.is_valid then
          match updatePost db (Post.save now
            { p with title := f.title, content := f.content,
                     featured_image := f.featured_image,
                     status := f.status }) with
          | some db' => (.redirect "my_posts", db')
          | none => (.integrityError, db)
        else (.formPage true, db)

/-- View `post_delete` (`blog/views.py`): `@login_required`;
`get_object_or_404(Post, slug=slug, author=request.user)`; a POST deletes
the row and redirects, a GET renders the confirmation page without
touching the store. -/
def post_delete (requester : Option Nat) (db : DB) (s : String)
    (m : Method) : Response × DB :=
  match requester with
  | none => (.loginRedirect, db)
  | some u =>
    match db.find? (fun p => p.slug == s && p.author == u) with
    | none => (.notFound, db)
    | some p =>
      match m with
      | .get => (.confirmPage p, db)
      | .post => (.redirect "my_posts", db.filter (fun q => q.id != p.id))

/-- View `my_posts` (`blog/views.py`): the caller's own posts, any status. -/
def my_posts (requester : Option Nat) (db : DB) : Option (List Post) :=
  match requester with
  | none => none
  | some u => some (db.filter (fun p => p.author == u))

/-! ### Basic facts about `Post.save` -/

theorem Post.save_slug (now : Nat) (p : Post) :
    (Post.save now p).slug = slugify p.title := by
  unfold Post.save
  split
  · rfl
  · next h =>
    push_neg at h
    exact h.2.symm

theorem Post.save_id (now : Nat) (p : Post) : (Post.save now p).id = p.id := by
  unfold Post.save; split <;> rfl

theorem Post.save_title (now : Nat) (p : Post) :
    (Post.save now p).title = p.title := by
  unfold Post.save; split <;> rfl

theorem Post.save_author (now : Nat) (p : Post) :
    (Post.save now p).author = p.author := by
  unfold Post.save; split <;> rfl

theorem Post.save_content (now : Nat) (p : Post) :
    (Post.save now p).content = p.content := by
  unfold Post.save; split <;> rfl

theorem Post.save_status (now : Nat) (p : Post) :
    (Post.save now p).status = p.status := by
  unfold Post.save; split <;> rfl

theorem Post.save_created_at (now : Nat) (p : Post) :
    (Post.save now p).created_at = p.created_at := by
  unfold Post.save; split <;> rfl

/-! ### Uniqueness of stored slugs -/

theorem slugsDistinct_unique (db : DB) (hd : slugsDistinct db = true) :
    ∀ p ∈ db, ∀ q ∈ db, p.slug = q.slug → p = q := by
  induction db with
  | nil => intro p hp; cases hp
  | cons a t ih =>
    rw [slugsDistinct, Bool.and_eq_true, List.all_eq_true] at hd
    obtain ⟨h1, h2⟩ := hd
    intro p hp q hq hpq
    cases hp with
    | head =>
      cases hq with
      | head => rfl
      | tail _ hq' =>
        have hne := h1 q hq'
        rw [bne_iff_ne] at hne
        exact absurd hpq.symm hne
    | tail _ hp' =>
      cases hq with
      | head =>
        have hne := h1 p hp'
        rw [bne_iff_ne] at hne
        exact absurd hpq hne
      | tail _ hq' => exact ih h2 p hp' q hq' hpq

/-- Under distinct slugs, the owner lookup of `post_edit` / `post_delete`
finds exactly the post with the requested slug when the requester is its
author. -/
theorem find?_owned (db : DB) (hd : slugsDistinct db = true) (p : Post)
    (hp : p ∈ db) (s : String) (u : Nat) (hs : p.slug = s)
    (ha : p.author = u) :
    db.find? (fun q => q.slug == s && q.author == u) = some p := by
  cases hfind : db.find? (fun q => q.slug == s && q.author == u) with
  | none =>
    have hnone := List.find?_eq_none.mp hfind p hp
    simp [hs, ha] at hnone
  | some a =>
    have ham := List.mem_of_find?_eq_some hfind
    have hpa := List.find?_some hfind
    rw [Bool.and_eq_true, beq_iff_eq, beq_iff_eq] at hpa
    have hap : a = p :=
      slugsDistinct_unique db hd a ham p hp (by rw [hpa.1, hs])
    rw [hap]

/-- Under distinct slugs, the owner lookup fails when the post with the
requested slug belongs to a different author. -/
theorem find?_not_owned (db : DB) (hd : slugsDistinct db = true) (p : Post)
    (hp : p ∈ db) (s : String) (u : Nat) (hs : p.slug = s)
    (ha : p.author ≠ u) :
    db.find? (fun q => q.slug == s && q.author == u) = none := by
  apply List.find?_eq_none.mpr
  intro q hq hcon
  rw [Bool.and_eq_true, beq_iff_eq, beq_iff_eq] at hcon
  have hqp : q = p := slugsDistinct_unique db hd q hq p hp (by rw [hcon.1, hs])
  exact ha (hqp ▸ hcon.2)

/-- Under distinct slugs, the public detail lookup of a non-published
post's slug fails, whoever the requester is. -/
theorem detail_none_of_unpublished (db : DB) (viewer : Option Nat)
    (p : Post) (hd : slugsDistinct db = true) (hp : p ∈ db)
    (hs : p.status ≠ "published") :
    post_detail viewer db p.slug = none := by
  unfold post_detail
  apply List.find?_eq_none.mpr
  intro q hq hcon
  rw [Bool.and_eq_true, beq_iff_eq, beq_iff_eq] at hcon
  have hqp : q = p := slugsDistinct_unique db hd q hq p hp hcon.1
  exact hs (hqp ▸ hcon.2)

/-! ### Claim theorems -/

/-- The slug update rule of a save, stated in the specification's own
words: recompute the slug as the canonical derivation of the title exactly
when the stored slug is empty or differs from that derivation. -/
def specSlugRule (p : Post) : String :=
  if p.slug = "" ∨ slugify p.title ≠ p.slug then slugify p.title else p.slug

/-- C2: on every save of a post, if the stored slug is empty or the
canonical derivation of the current title differs from the stored slug,
the slug is recomputed as the canonical derivation of the title (which
lowercases, collapses non-alphanumeric runs to single hyphens, and strips
leading/trailing hyphens — `slugify`). -/
theorem c2_save_follows_slug_rule (p : Post) (now : Nat) :
    (Post.save now p).slug = specSlugRule p := by
  unfold Post.save specSlugRule
  split <;> rfl

/-- C3: a draft post never appears in the public list view's result and a
public detail request for its slug returns not-found; the public list and
detail operations return only published posts. -/
theorem c3_draft_never_public (db : DB) (viewer : Option Nat) (p : Post)
    (hd : slugsDistinct db = true) (hp : p ∈ db)
    (hs : p.status = "draft") :
    p ∉ post_list viewer db ∧ post_detail viewer db p.slug = none ∧
    (∀ q ∈ post_list viewer db, q.status = "published") ∧
    (∀ s q, post_detail viewer db s = some q → q.status = "published") := by
  refine ⟨?_, ?_, ?_, ?_⟩
  · intro hmem
    unfold post_list at hmem
    have hpub := (List.mem_filter.mp hmem).2
    rw [hs] at hpub
    simp at hpub
  · exact detail_none_of_unpublished db viewer p hd hp (by rw [hs]; decide)
  · intro q hq
    have hpub := (List.mem_filter.mp hq).2
    rwa [beq_iff_eq] at hpub
  · intro s q hq
    have hpa := List.find?_some hq
    rw [Bool.and_eq_true, beq_iff_eq, beq_iff_eq] at hpa
    exact hpa.2

/-- Concrete draft post used to witness the visibility claims. -/
def pDraft : Post :=
  { id := 1, title := "Hidden Note", slug := "hidden-note", author := 3,
    content := "secret", featured_image := none, status := "draft",
    created_at := 0, updated_at := 0 }

theorem c3_witness :
    pDraft ∉ post_list (some 3) [pDraft] ∧
    post_detail (some 3) [pDraft] pDraft.slug = none ∧
    (∀ q ∈ post_list (some 3) [pDraft], q.status = "published") ∧
    (∀ s q, post_detail (some 3) [pDraft] s = some q →
      q.status = "published") :=
  c3_draft_never_public [pDraft] (some 3) pDraft (by decide) (by decide)
    (by decide)

/-- C10: the public detail view's published filter is unconditional — a
draft post's slug returns not-found for every requester, the post's author
included. -/
theorem c10_draft_detail_hidden_from_author (db : DB) (p : Post)
    (hd : slugsDistinct db = true) (hp : p ∈ db)
    (hs : p.status = "draft") :
    post_detail (some p.author) db p.slug = none ∧
    ∀ viewer : Option Nat, post_detail viewer db p.slug = none := by
  have hnp : p.status ≠ "published" := by rw [hs]; decide
  exact ⟨detail_none_of_unpublished db (some p.author) p hd hp hnp,
    fun viewer => detail_none_of_unpublished db viewer p hd hp hnp⟩

theorem c10_witness :
    post_detail (some pDraft.author) [pDraft] pDraft.slug = none ∧
    ∀ viewer : Option Nat, post_detail viewer [pDraft] pDraft.slug = none :=
  c10_draft_detail_hidden_from_author [pDraft] pDraft (by decide) (by decide)
    (by decide)

/-- C4: a request by an authenticated user to edit or delete an existing
post of another author returns not-found and leaves the store unchanged,
even though the slug is valid. -/
theorem c4_ownership_guard (db : DB) (u now : Nat) (s : String)
    (m : Method) (f : PostForm) (p : Post)
    (hd : slugsDistinct db = true) (hp : p ∈ db) (hs : p.slug = s)
    (ha : p.author ≠ u) :
    post_edit (some u) db s m f now = (.notFound, db) ∧
    post_delete (some u) db s m = (.notFound, db) := by
  have hfind := find?_not_owned db hd p hp s u hs ha
  constructor
  · simp [post_edit, hfind]
  · simp [post_delete, hfind]

theorem c4_witness :
    post_edit (some 9) [pDraft] "hidden-note" .post
        { title := "T", content := "c", featured_image := none,
          status := "draft" } 4 = (.notFound, [pDraft]) ∧
    post_delete (some 9) [pDraft] "hidden-note" .post =
      (.notFound, [pDraft]) :=
  c4_ownership_guard [pDraft] 9 4 "hidden-note" .post
    { title := "T", content := "c", featured_image := none,
      status := "draft" }
    pDraft (by decide) (by decide) (by decide) (by decide)

/-- C9: a create or edit POST whose form validation fails leaves the
persistent store unchanged; the create re-renders the form with errors,
and the edit either 404s (no owned post) or re-renders with errors —
never reaching the save step. -/
theorem c9_invalid_form_no_change (db : DB) (u now newId : Nat)
    (s : String) (f : PostForm) (hf : f.is_valid = false) :
    post_create (some u) db .post f now newId = (.formPage true, db) ∧
    (post_edit (some u) db s .post f now).2 = db ∧
    ((post_edit (some u) db s .post f now).1 = .notFound ∨
      (post_edit (some u) db s .post f now).1 = .formPage true) := by
  refine ⟨?_, ?_, ?_⟩
  · simp [post_create, hf]
  · cases hfind : db.find? (fun p => p.slug == s && p.author == u) with
    | none => simp [post_edit, hfind]
    | some p => simp [post_edit, hfind, hf]
  · cases hfind : db.find? (fun p => p.slug == s && p.author == u) with
    | none =>
      apply Or.inl
      simp [post_edit, hfind]
    | some p =>
      apply Or.inr
      simp [post_edit, hfind, hf]

theorem c9_witness :
    post_create (some 3) [pDraft] .post
        { title := "", content := "c", featured_image := none,
          status := "draft" } 4 11 = (.formPage true, [pDraft]) ∧
    (post_edit (some 3) [pDraft] "hidden-note" .post
        { title := "", content := "c", featured_image := none,
          status := "draft" } 4).2 = [pDraft] ∧
    ((post_edit (some 3) [pDraft] "hidden-note" .post
        { title := "", content := "c", featured_image := none,
          status := "draft" } 4).1 = .notFound ∨
      (post_edit (some 3) [pDraft] "hidden-note" .post
        { title := "", content := "c", featured_image := none,
          status := "draft" } 4).1 = .formPage true) :=
  c9_invalid_form_no_change [pDraft] 3 4 11 "hidden-note"
    { title := "", content := "c", featured_image := none,
      status := "draft" } (by decide)

/-- C8: an edit never changes a stored post's author or creation
timestamp: every post in the store after `post_edit` has the id, author
and `created_at` of a post that was already stored (the form binds only
title, content, featured_image and status). -/
theorem c8_edit_preserves_author_and_created_at (requester : Option Nat)
    (db : DB) (s : String) (m : Method) (f : PostForm) (now : Nat) :
    ∀ q ∈ (post_edit requester db s m f now).2,
      ∃ q0 ∈ db, q.id = q0.id ∧ q.author = q0.author ∧
        q.created_at = q0.created_at := by
  intro q hq
  cases requester with
  | none => exact ⟨q, hq, rfl, rfl, rfl⟩
  | some u =>
    cases hfind : db.find? (fun p => p.slug == s && p.author == u) with
    | none =>
      have h2 : (post_edit (some u) db s m f now).2 = db := by
        simp [post_edit, hfind]
      rw [h2] at hq
      exact ⟨q, hq, rfl, rfl, rfl⟩
    | some p =>
      cases m with
      | get =>
        have h2 : (post_edit (some u) db s .get f now).2 = db := by
          simp [post_edit, hfind]
        rw [h2] at hq
        exact ⟨q, hq, rfl, rfl, rfl⟩
      | post =>
        by_cases hv : f.is_valid = true
        · cases hup : updatePost db (Post.save now
            { p with title := f.title, content := f.content,
                     featured_image := f.featured_image,
                     status := f.status }) with
          | none =>
            have h2 : (post_edit (some u) db s .post f now).2 = db := by
              simp [post_edit, hfind, hv, hup]
            rw [h2] at hq
            exact ⟨q, hq, rfl, rfl, rfl⟩
          | some db2 =>
            have h2 : (post_edit (some u) db s .post f now).2 = db2 := by
              simp [post_edit, hfind, hv, hup]
            rw [h2] at hq
            unfold updatePost at hup
            split at hup
            · exact absurd hup (by simp)
            · rw [Option.some.injEq] at hup
              rw [← hup] at hq
              obtain ⟨x, hx, hgx⟩ := List.mem_map.mp hq
              simp only [Post.save_id] at hgx
              by_cases hid : (x.id == p.id) = true
              · rw [if_pos hid] at hgx
                refine ⟨p, List.mem_of_find?_eq_some hfind, ?_, ?_, ?_⟩
                · rw [← hgx, Post.save_id]
                · rw [← hgx, Post.save_author]
                · rw [← hgx, Post.save_created_at]
              · rw [if_neg hid] at hgx
                rw [← hgx]
                exact ⟨x, hx, rfl, rfl, rfl⟩
        · have h2 : (post_edit (some u) db s .post f now).2 = db := by
            simp [post_edit, hfind, hv]
          rw [h2] at hq
          exact ⟨q, hq, rfl, rfl, rfl⟩

/-- A valid edit submission used by several witnesses. -/
def fEdit : PostForm :=
  { title := "Hello", content := "x", featured_image := none,
    status := "published" }

/-- The result of editing `pDraft` with `fEdit` at clock 6. -/
def pEdited : Post :=
  { id := 1, title := "Hello", slug := "hello", author := 3,
    content := "x", featured_image := none, status := "published",
    created_at := 0, updated_at := 6 }

theorem c8_witness :
    ∃ q0 ∈ [pDraft], pEdited.id = q0.id ∧ pEdited.author = q0.author ∧
      pEdited.created_at = q0.created_at :=
  c8_edit_preserves_author_and_created_at (some 3) [pDraft] "hidden-note"
    .post fEdit 6 pEdited (by decide)

/-- A post whose slug was manually set to a value different from the
canonical derivation of its title (`slugify "Old" = "old" ≠ "custom"`). -/
def pManual : Post :=
  { id := 1, title := "Old", slug := "custom", author := 7,
    content := "c", featured_image := none, status := "published",
    created_at := 0, updated_at := 0 }

/-- A title-changing edit submission. -/
def fRetitle : PostForm :=
  { title := "New Title", content := "c", featured_image := none,
    status := "published" }

/-- C1 counterexample: `pManual`'s slug "custom" differs from the canonical
derivation of its old title "Old", yet editing the title does not leave
the slug unchanged — the save overwrites it with "new-title", because
`Post.save` compares the stored slug against the derivation of the *new*
title, not the old one. -/
theorem c1_counterexample :
    pManual.slug ≠ slugify pManual.title ∧
    (post_edit (some 7) [pManual] "custom" .post fRetitle 5).2.map
        Post.slug = ["new-title"] ∧
    "new-title" ≠ pManual.slug := by decide

/-- C1 (amended): editing a post's title always sets the slug to the
canonical derivation of the *new* title — when the old slug was the old
title's derivation this is the claimed update, but a manually set slug is
overwritten as well (it survives only if it already equals the new
derivation). -/
theorem c1_edit_recomputes_slug_from_new_title (db db' : DB) (u now : Nat)
    (s : String) (f : PostForm) (p : Post)
    (hfind : db.find? (fun q => q.slug == s && q.author == u) = some p)
    (hrun : post_edit (some u) db s .post f now =
      (.redirect "my_posts", db')) :
    ∃ q ∈ db', q.id = p.id ∧ q.slug = slugify f.title := by
  by_cases hv : f.is_valid = true
  · cases hup : updatePost db (Post.save now
      { p with title := f.title, content := f.content,
               featured_image := f.featured_image,
               status := f.status }) with
    | none => simp [post_edit, hfind, hv, hup] at hrun
    | some db2 =>
      simp [post_edit, hfind, hv, hup, Prod.mk.injEq] at hrun
      unfold updatePost at hup
      split at hup
      · exact absurd hup (by simp)
      · rw [Option.some.injEq] at hup
        refine ⟨Post.save now
          { p with title := f.title, content := f.content,
                   featured_image := f.featured_image,
                   status := f.status }, ?_, ?_, ?_⟩
        · rw [← hrun, ← hup]
          apply List.mem_map.mpr
          exact ⟨p, List.mem_of_find?_eq_some hfind, by simp [Post.save_id]⟩
        · rw [Post.save_id]
        · rw [Post.save_slug]
  · simp [post_edit, hfind, hv] at hrun

/-- A post whose slug is exactly the canonical derivation of its title. -/
def pCanon : Post :=
  { id := 2, title := "Old", slug := "old", author := 7,
    content := "c", featured_image := none, status := "published",
    created_at := 0, updated_at := 0 }

theorem c1_witness :
    ∃ q ∈ (post_edit (some 7) [pCanon] "old" .post fRetitle 5).2,
      q.id = pCanon.id ∧ q.slug = slugify fRetitle.title :=
  c1_edit_recomputes_slug_from_new_title [pCanon]
    (post_edit (some 7) [pCanon] "old" .post fRetitle 5).2 7 5 "old"
    fRetitle pCanon (by decide) (by decide)

/-- A valid creation whose derived slug is still free succeeds: the post is
appended after running the model save (slug derivation, timestamps). -/
theorem post_create_ok (db : DB) (u now newId : Nat) (f : PostForm)
    (hv : f.is_valid = true)
    (hfree : ∀ q ∈ db, q.slug ≠ slugify f.title) :
    post_create (some u) db .post f now newId =
      (.redirect "my_posts",
        db ++ [Post.save now
          { id := newId, title := f.title, slug := "", author := u,
            content := f.content, featured_image := f.featured_image,
            status := f.status, created_at := now, updated_at := now }]) := by
  have hnot : ¬ ((db.any (fun q => q.slug == (Post.save now
      { id := newId, title := f.title, slug := "", author := u,
        content := f.content, featured_image := f.featured_image,
        status := f.status, created_at := now,
        updated_at := now }).slug)) = true) := by
    intro hany
    obtain ⟨q, hq, hbeq⟩ := List.any_eq_true.mp hany
    rw [beq_iff_eq, Post.save_slug] at hbeq
    exact hfree q hq hbeq
  have hins : insertPost db (Post.save now
      { id := newId, title := f.title, slug := "", author := u,
        content := f.content, featured_image := f.featured_image,
        status := f.status, created_at := now, updated_at := now }) =
      some (db ++ [Post.save now
        { id := newId, title := f.title, slug := "", author := u,
          content := f.content, featured_image := f.featured_image,
          status := f.status, created_at := now, updated_at := now }]) := by
    unfold insertPost
    rw [if_neg hnot]
  simp [post_create, hv, hins]

/-- C5: two distinct titles with the same canonical slug cannot both be
created: the first creation succeeds and stores a post carrying the
derived slug, the second is rejected by the persistence layer with a
uniqueness violation, and the store (with the first post) is unchanged. -/
theorem c5_colliding_titles (db : DB) (f1 f2 : PostForm)
    (u1 u2 now1 now2 id1 id2 : Nat)
    (hv1 : f1.is_valid = true) (hv2 : f2.is_valid = true)
    (_hne : f1.title ≠ f2.title)
    (hcol : slugify f1.title = slugify f2.title)
    (hfree : ∀ q ∈ db, q.slug ≠ slugify f1.title) :
    ∃ db1,
      post_create (some u1) db .post f1 now1 id1 =
        (.redirect "my_posts", db1) ∧
      post_create (some u2) db1 .post f2 now2 id2 =
        (.integrityError, db1) ∧
      ∃ q ∈ db1, q.title = f1.title ∧ q.slug = slugify f1.title := by
  refine ⟨db ++ [Post.save now1
      { id := id1, title := f1.title, slug := "", author := u1,
        content := f1.content, featured_image := f1.featured_image,
        status := f1.status, created_at := now1, updated_at := now1 }],
    post_create_ok db u1 now1 id1 f1 hv1 hfree, ?_, ?_⟩
  · have hany : ((db ++ [Post.save now1
        { id := id1, title := f1.title, slug := "", author := u1,
          content := f1.content, featured_image := f1.featured_image,
          status := f1.status, created_at := now1,
          updated_at := now1 }]).any (fun q => q.slug == (Post.save now2
        { id := id2, title := f2.title, slug := "", author := u2,
          content := f2.content, featured_image := f2.featured_image,
          status := f2.status, created_at := now2,
          updated_at := now2 }).slug)) = true := by
      apply List.any_eq_true.mpr
      refine ⟨Post.save now1
        { id := id1, title := f1.title, slug := "", author := u1,
          content := f1.content, featured_image := f1.featured_image,
          status := f1.status, created_at := now1,
          updated_at := now1 }, by simp, ?_⟩
      rw [beq_iff_eq, Post.save_slug, Post.save_slug]
      exact hcol
    have hins : insertPost (db ++ [Post.save now1
        { id := id1, title := f1.title, slug := "", author := u1,
          content := f1.content, featured_image := f1.featured_image,
          status := f1.status, created_at := now1,
          updated_at := now1 }]) (Post.save now2
        { id := id2, title := f2.title, slug := "", author := u2,
          content := f2.content, featured_image := f2.featured_image,
          status := f2.status, created_at := now2,
          updated_at := now2 }) = none := by
      unfold insertPost
      rw [if_pos hany]
    simp [post_create, hv2, hins]
  · refine ⟨Post.save now1
      { id := id1, title := f1.title, slug := "", author := u1,
        content := f1.content, featured_image := f1.featured_image,
        status := f1.status, created_at := now1,
        updated_at := now1 }, by simp, ?_, ?_⟩
    · rw [Post.save_title]
    · rw [Post.save_slug]

/-- First of two colliding creations. -/
def fHello1 : PostForm :=
  { title := "Hello World", content := "a", featured_image := none,
    status := "published" }

/-- Second creation, a distinct title with the same canonical slug. -/
def fHello2 : PostForm :=
  { title := "hello world", content := "b", featured_image := none,
    status := "published" }

theorem c5_witness :
    ∃ db1,
      post_create (some 1) [] .post fHello1 10 1 =
        (.redirect "my_posts", db1) ∧
      post_create (some 2) db1 .post fHello2 11 2 =
        (.integrityError, db1) ∧
      ∃ q ∈ db1, q.title = fHello1.title ∧
        q.slug = slugify fHello1.title :=
  c5_colliding_titles [] fHello1 fHello2 1 2 10 11 1 2 (by decide)
    (by decide) (by decide) (by decide) (by decide)

/-- C6: for a post owned by the requester, a GET delete renders the
confirmation page and changes nothing, while a POST delete removes the
post; afterwards every detail, edit or delete request for that slug
returns not-found, with the store no longer containing the post. -/
theorem c6_delete_is_terminal (db : DB) (u : Nat) (s : String) (p : Post)
    (hd : slugsDistinct db = true) (hp : p ∈ db) (hs : p.slug = s)
    (ha : p.author = u) :
    post_delete (some u) db s .get = (.confirmPage p, db) ∧
    ∃ db', post_delete (some u) db s .post = (.redirect "my_posts", db') ∧
      p ∉ db' ∧
      (∀ viewer, post_detail viewer db' s = none) ∧
      (∀ u' m f now, post_edit (some u') db' s m f now =
        (.notFound, db')) ∧
      (∀ u' m, post_delete (some u') db' s m = (.notFound, db')) := by
  have hfind := find?_owned db hd p hp s u hs ha
  have hnos : ∀ q ∈ db.filter (fun q => q.id != p.id), q.slug ≠ s := by
    intro q hq hqs
    obtain ⟨hqdb, hqid⟩ := List.mem_filter.mp hq
    have hqp : q = p := slugsDistinct_unique db hd q hqdb p hp (by rw [hqs, hs])
    rw [hqp] at hqid
    simp at hqid
  have hgone : ∀ u' : Nat,
      (db.filter (fun q => q.id != p.id)).find?
        (fun q => q.slug == s && q.author == u') = none := by
    intro u'
    apply List.find?_eq_none.mpr
    intro q hq hcon
    rw [Bool.and_eq_true, beq_iff_eq, beq_iff_eq] at hcon
    exact hnos q hq hcon.1
  refine ⟨by simp [post_delete, hfind],
    db.filter (fun q => q.id != p.id), by simp [post_delete, hfind],
    ?_, ?_, ?_, ?_⟩
  · intro hmem
    have hself := (List.mem_filter.mp hmem).2
    simp at hself
  · intro viewer
    unfold post_detail
    apply List.find?_eq_none.mpr
    intro q hq hcon
    rw [Bool.and_eq_true, beq_iff_eq, beq_iff_eq] at hcon
    exact hnos q hq hcon.1
  · intro u' m f now
    simp [post_edit, hgone u']
  · intro u' m
    simp [post_delete, hgone u']

theorem c6_witness :
    post_delete (some 3) [pDraft] "hidden-note" .get =
      (.confirmPage pDraft, [pDraft]) ∧
    ∃ db', post_delete (some 3) [pDraft] "hidden-note" .post =
        (.redirect "my_posts", db') ∧
      pDraft ∉ db' ∧
      (∀ viewer, post_detail viewer db' "hidden-note" = none) ∧
      (∀ u' m f now, post_edit (some u') db' "hidden-note" m f now =
        (.notFound, db')) ∧
      (∀ u' m, post_delete (some u') db' "hidden-note" m =
        (.notFound, db')) :=
  c6_delete_is_terminal [pDraft] 3 "hidden-note" pDraft (by decide)
    (by decide) (by decide) (by decide)

/-- C7: an authenticated user's valid create submission persists a new
post whose author is the current user (and whose bound fields come from
the form) and redirects to "my posts"; an invalid submission re-renders
the form with errors and does not redirect. -/
theorem c7_create_flow (db : DB) (u now newId : Nat) (f : PostForm)
    (hv : f.is_valid = true)
    (hfree : ∀ q ∈ db, q.slug ≠ slugify f.title) :
    (∃ q, post_create (some u) db .post f now newId =
        (.redirect "my_posts", db ++ [q]) ∧
      q.author = u ∧ q.title = f.title ∧ q.content = f.content ∧
      q.status = f.status) ∧
    (∀ g : PostForm, g.is_valid = false →
      post_create (some u) db .post g now newId = (.formPage true, db)) := by
  constructor
  · refine ⟨Post.save now
      { id := newId, title := f.title, slug := "", author := u,
        content := f.content, featured_image := f.featured_image,
        status := f.status, created_at := now, updated_at := now },
      post_create_ok db u now newId f hv hfree, ?_, ?_, ?_, ?_⟩
    · rw [Post.save_author]
    · rw [Post.save_title]
    · rw [Post.save_content]
    · rw [Post.save_status]
  · intro g hg
    simp [post_create, hg]

theorem c7_witness :
    (∃ q, post_create (some 4) [] .post fHello1 10 9 =
        (.redirect "my_posts", [] ++ [q]) ∧
      q.author = 4 ∧ q.title = fHello1.title ∧
      q.content = fHello1.content ∧ q.status = fHello1.status) ∧
    (∀ g : PostForm, g.is_valid = false →
      post_create (some 4) [] .post g 10 9 = (.formPage true, [])) :=
  c7_create_flow [] 4 10 9 fHello1 (by decide) (by decide)
